import Mathlib

/-
  Shallow embedding of `src/index.js` (firebase-functions-api).

  The source is an Express app exported as a Firebase HTTPS function, plus two
  callable functions.  JavaScript values that the handlers manipulate are
  modelled by `JVal`; request/response JSON objects and Firestore documents are
  association lists of string keys to `JVal`.  The Firestore client is modelled
  by an explicit `Store` state: two collections (`users`, `todos`), a counter
  supplying fresh opaque document ids, a server clock used to resolve
  `FieldValue.serverTimestamp()` sentinels at write time, and an optional
  injected fault `fault` — when `fault = some msg`, every Firestore call made
  by a handler throws an exception whose message is `msg`, which the handler's
  try/catch translates to an HTTP 500 response.
-/

namespace FirebaseApi

/-- JavaScript runtime values as the handlers in `src/index.js` use them:
strings, booleans, numbers, `undefined`, `null`, the unresolved
`FieldValue.serverTimestamp()` sentinel, resolved timestamps, objects and
arrays. -/
inductive JVal where
  | str (s : String)
  | boolean (b : Bool)
  | num (n : Int)
  | undef
  | null
  | timeSentinel
  | time (t : Nat)
  | obj (fields : List (String × JVal))
  | arr (elems : List JVal)

/-- Discriminator for the strict comparison `x === undefined`. -/
def isUndef : JVal → Bool
  | .undef => true
  | _ => false

/-- Discriminator for the `FieldValue.serverTimestamp()` sentinel. -/
def isSentinel : JVal → Bool
  | .timeSentinel => true
  | _ => false

/-- A JSON object / Firestore document: an association list of fields.
Keys produced by the handlers are distinct, and lookup returns the first
binding. -/
abbrev Doc := List (String × JVal)

/-- JavaScript truthiness, as used by `if (!name || !email)` and
`if (!title)`: `undefined`, `null`, `false`, `0` and `""` are falsy. -/
def truthy : JVal → Bool
  | .str s => !(s == "")
  | .boolean b => b
  | .num n => !(n == 0)
  | .undef => false
  | .null => false
  | _ => true

/-- Property access `body.k` (also what destructuring reads): the bound value,
or `undefined` when the key is absent. -/
def getField : Doc → String → JVal
  | [], _ => .undef
  | (k', v) :: rest, k => if k' = k then v else getField rest k

/-- Destructuring default `const { role = 'user' } = body`: the default applies
exactly when the read value is `undefined`. -/
def orDefault (v dflt : JVal) : JVal :=
  match v with
  | .undef => dflt
  | w => w

/-- Assignment `obj.k = v` / object-spread override: replace the first binding
of `k`, or append one. -/
def setField : Doc → String → JVal → Doc
  | [], k, v => [(k, v)]
  | (k', v') :: rest, k, v =>
      if k' = k then (k, v) :: rest else (k', v') :: setField rest k v

/-- Object spread `{...base, ...d}` restricted to what the source does:
fold the fields of `d` over `base`, later fields overriding. -/
def spreadInto (base : Doc) (d : Doc) : Doc :=
  d.foldl (fun acc kv => setField acc kv.1 kv.2) base

/-- Response merge `{ id: docId, ...doc.data() }` as built by every read/create response. -/
def mergeId (docId : String) (d : Doc) : Doc :=
  spreadInto [("id", JVal.str docId)] d

/-- The Firestore write path resolves every `serverTimestamp()` sentinel in the
written data to the server's current time `t`. -/
def resolveSentinels (t : Nat) (d : Doc) : Doc :=
  d.map (fun kv => (kv.1, if isSentinel kv.2 then JVal.time t else kv.2))

/-- Opaque document id assigned by `collection(...).add(...)`. -/
def genId (n : Nat) : String := "doc" ++ toString n

/-- First-match lookup of a document by id in a collection. -/
def findDoc : List (String × Doc) → String → Option Doc
  | [], _ => none
  | (i, d) :: rest, docId => if i = docId then some d else findDoc rest docId

/-- Collection effect of `doc(id).update(data)` on an existing id: replace the stored document. -/
def updateAssoc : List (String × Doc) → String → Doc → List (String × Doc)
  | [], _, _ => []
  | (i, dd) :: rest, docId, d =>
      if i = docId then (docId, d) :: updateAssoc rest docId d
      else (i, dd) :: updateAssoc rest docId d

/-- Document effect of `doc(id).update(data)`: merges the update fields into the stored document,
resolving timestamp sentinels at write time. -/
def applyUpdate (t : Nat) (d : Doc) (upd : Doc) : Doc :=
  (resolveSentinels t upd).foldl (fun acc kv => setField acc kv.1 kv.2) d

/-- The modelled Firestore state: the two collections, the id supply, the
server clock, and an optional injected client fault. -/
structure Store where
  users : List (String × Doc)
  todos : List (String × Doc)
  nextId : Nat
  now : Nat
  fault : Option String

/-- An HTTP response as produced by `res.status(...).json(...)` (Express
defaults to status 200 for plain `res.json`). -/
structure HttpResp where
  status : Nat
  body : JVal

/-- The `catch (error) { res.status(500).json({ error: error.message }) }`
branch shared by every handler. -/
def err500 (msg : String) : HttpResp :=
  { status := 500, body := .obj [("error", .str msg)] }

/-- Handler for `GET /health` (src/index.js:19-25). -/
def getHealth (st : Store) : HttpResp :=
  { status := 200
    body := .obj [("status", .str "healthy"), ("timestamp", .time st.now),
                  ("service", .str "firebase-functions-api")] }

/-- Handler for `GET /users` (src/index.js:28-44): list up to 50 user documents, each with
its id merged in; store exceptions become 500. -/
def getUsers (st : Store) : HttpResp × Store :=
  match st.fault with
  | some msg => (err500 msg, st)
  | none =>
      let users := (st.users.take 50).map (fun p => JVal.obj (mergeId p.1 p.2))
      ({ status := 200, body := .obj [("users", .arr users)] }, st)

/-- Handler for `POST /users` (src/index.js:46-71): validate `name`/`email` truthy, build
`userData` with `role` defaulting to `"user"` and sentinel timestamps, insert,
and answer 201 echoing `{id, ...userData}` (sentinels unresolved). -/
def postUsers (st : Store) (body : Doc) : HttpResp × Store :=
  let name := getField body "name"
  let email := getField body "email"
  let role := orDefault (getField body "role") (.str "user")
  if !truthy name || !truthy email then
    ({ status := 400, body := .obj [("error", .str "Name and email are required")] }, st)
  else
    match st.fault with
    | some msg => (err500 msg, st)
    | none =>
        let userData : Doc :=
          [("name", name), ("email", email), ("role", role),
           ("createdAt", .timeSentinel), ("updatedAt", .timeSentinel)]
        let docId := genId st.nextId
        ({ status := 201, body := .obj (mergeId docId userData) },
         { st with users := st.users ++ [(docId, resolveSentinels st.now userData)],
                   nextId := st.nextId + 1 })

/-- Handler for `GET /users/:id` (src/index.js:73-89): 404 when absent, otherwise the
document with its id merged in. -/
def getUserById (st : Store) (docId : String) : HttpResp × Store :=
  match st.fault with
  | some msg => (err500 msg, st)
  | none =>
      match findDoc st.users docId with
      | none => ({ status := 404, body := .obj [("error", .str "User not found")] }, st)
      | some d => ({ status := 200, body := .obj (mergeId docId d) }, st)

/-- Handler for `GET /todos` (src/index.js:92-108). -/
def getTodos (st : Store) : HttpResp × Store :=
  match st.fault with
  | some msg => (err500 msg, st)
  | none =>
      let todos := (st.todos.take 50).map (fun p => JVal.obj (mergeId p.1 p.2))
      ({ status := 200, body := .obj [("todos", .arr todos)] }, st)

/-- Handler for `POST /todos` (src/index.js:110-135): validate `title` truthy, build
`todoData` with `completed` defaulting to `false` (`description` is copied
as-is, even when `undefined`), insert, answer 201 echoing the data. -/
def postTodos (st : Store) (body : Doc) : HttpResp × Store :=
  let title := getField body "title"
  let description := getField body "description"
  let completed := orDefault (getField body "completed") (.boolean false)
  if !truthy title then
    ({ status := 400, body := .obj [("error", .str "Title is required")] }, st)
  else
    match st.fault with
    | some msg => (err500 msg, st)
    | none =>
        let todoData : Doc :=
          [("title", title), ("description", description), ("completed", completed),
           ("createdAt", .timeSentinel), ("updatedAt", .timeSentinel)]
        let docId := genId st.nextId
        ({ status := 201, body := .obj (mergeId docId todoData) },
         { st with todos := st.todos ++ [(docId, resolveSentinels st.now todoData)],
                   nextId := st.nextId + 1 })

/-- Handler for `PUT /todos/:id` (src/index.js:137-161): build `updateData` from the
fields strictly distinct from `undefined` (always refreshing `updatedAt`),
call `update` (which throws when the document does not exist — caught as 500),
then re-read and answer with the updated document. -/
def putTodo (st : Store) (docId : String) (body : Doc) : HttpResp × Store :=
  match st.fault with
  | some msg => (err500 msg, st)
  | none =>
      let title := getField body "title"
      let description := getField body "description"
      let completed := getField body "completed"
      let u0 : Doc := [("updatedAt", JVal.timeSentinel)]
      let u1 : Doc := if isUndef title then u0 else u0 ++ [("title", title)]
      let u2 : Doc := if isUndef description then u1 else u1 ++ [("description", description)]
      let u3 : Doc := if isUndef completed then u2 else u2 ++ [("completed", completed)]
      match findDoc st.todos docId with
      | none => (err500 ("No document to update: todos/" ++ docId), st)
      | some d =>
          let d2 := applyUpdate st.now d u3
          ({ status := 200, body := .obj (mergeId docId d2) },
           { st with todos := updateAssoc st.todos docId d2 })

/-- Handler for `DELETE /todos/:id` (src/index.js:163-173): delete unconditionally (no
existence check) and answer with a fixed confirmation message. -/
def deleteTodo (st : Store) (docId : String) : HttpResp × Store :=
  match st.fault with
  | some msg => (err500 msg, st)
  | none =>
      ({ status := 200, body := .obj [("message", .str "Todo deleted successfully")] },
       { st with todos := st.todos.filter (fun p => p.1 ≠ docId) })

/-- Caller context of a callable function; `auth` is the authenticated
identity (`context.auth`), absent for unauthenticated calls. -/
structure CallCtx where
  auth : Option String

/-- Error type `functions.https.HttpsError` restricted to the two codes the source
throws. -/
inductive HttpsError where
  | unauthenticated (msg : String)
  | internal (msg : String)
  deriving DecidableEq, Repr

/-- External platform state touched by the callable functions: accounts
created through the Identity Provider, notifications handed to the Push
Messaging client, and an optional injected provider fault. -/
structure ExtState where
  authUsers : List (String × Doc)
  nextUid : Nat
  sentMessages : List JVal
  nextMsgId : Nat
  fault : Option String

/-- Callable `createUser` (src/index.js:179-197): require `context.auth`,
then create an account with `emailVerified: false` and return
`{uid, email}`; provider failures become `internal` errors. -/
def createUser (data : Doc) (ctx : CallCtx) (ext : ExtState) :
    Except HttpsError JVal × ExtState :=
  match ctx.auth with
  | none => (.error (.unauthenticated "User must be authenticated"), ext)
  | some _ =>
      match ext.fault with
      | some msg => (.error (.internal msg), ext)
      | none =>
          let email := getField data "email"
          let displayName := getField data "displayName"
          let uid := "uid" ++ toString ext.nextUid
          let record : Doc :=
            [("email", email), ("displayName", displayName),
             ("emailVerified", .boolean false)]
          (.ok (.obj [("uid", .str uid), ("email", email)]),
           { ext with authUsers := ext.authUsers ++ [(uid, record)],
                      nextUid := ext.nextUid + 1 })

/-- Callable `sendNotification` (src/index.js:199-220): require
`context.auth`, then hand `{token, notification: {title, body}}` to the
messaging client and return `{success: true, messageId}`. -/
def sendNotification (data : Doc) (ctx : CallCtx) (ext : ExtState) :
    Except HttpsError JVal × ExtState :=
  match ctx.auth with
  | none => (.error (.unauthenticated "User must be authenticated"), ext)
  | some _ =>
      match ext.fault with
      | some msg => (.error (.internal msg), ext)
      | none =>
          let message := JVal.obj
            [("token", getField data "token"),
             ("notification", .obj [("title", getField data "title"),
                                    ("body", getField data "body")])]
          let mid := "msg" ++ toString ext.nextMsgId
          (.ok (.obj [("success", .boolean true), ("messageId", .str mid)]),
           { ext with sentMessages := ext.sentMessages ++ [message],
                      nextMsgId := ext.nextMsgId + 1 })

/-! ### Auxiliary lemmas about the field operations -/

theorem getField_setField (d : Doc) (k k' : String) (v : JVal) :
    getField (setField d k v) k' = if k' = k then v else getField d k' := by
  induction d with
  | nil =>
      simp only [setField, getField]
      by_cases h : k = k'
      · subst h; simp
      · rw [if_neg h, if_neg (fun h' => h h'.symm)]
  | cons hd tl ih =>
      obtain ⟨k0, v0⟩ := hd
      simp only [setField]
      by_cases h0 : k0 = k
      · subst h0
        simp only [if_pos rfl, getField]
        by_cases h1 : k0 = k'
        · subst h1; simp
        · rw [if_neg h1, if_neg (fun h' => h1 h'.symm), if_neg h1]
      · rw [if_neg h0]
        simp only [getField]
        by_cases h1 : k0 = k'
        · subst h1
          simp [h0]
        · rw [if_neg h1, if_neg h1, ih]

theorem getField_foldl_setField (l : List (String × JVal)) (d : Doc) (k : String)
    (h : ∀ p ∈ l, p.1 ≠ k) :
    getField (l.foldl (fun acc kv => setField acc kv.1 kv.2) d) k = getField d k := by
  induction l generalizing d with
  | nil => rfl
  | cons p rest ih =>
      simp only [List.foldl_cons]
      rw [ih _ (fun q hq => h q (List.mem_cons_of_mem _ hq))]
      rw [getField_setField, if_neg (fun h' => h p (List.mem_cons_self _ _) h'.symm)]

theorem findDoc_updateAssoc (c : List (String × Doc)) (docId : String) (d d0 : Doc)
    (h : findDoc c docId = some d0) :
    findDoc (updateAssoc c docId d) docId = some d := by
  induction c with
  | nil => simp [findDoc] at h
  | cons p rest ih =>
      obtain ⟨i, dd⟩ := p
      by_cases h0 : i = docId
      · subst h0
        simp [updateAssoc, findDoc]
      · simp only [findDoc, if_neg h0] at h
        simp only [updateAssoc, if_neg h0, findDoc]
        exact ih h

/-! ### C1 -/

/-- C1: whenever the request body of `POST /users` has `name` missing or empty,
or `email` missing or empty, the handler answers HTTP 400 with the error
object and leaves the store untouched. -/
theorem c1_post_users_missing_field_400 (st : Store) (body : Doc)
    (h : getField body "name" = .undef ∨ getField body "name" = .str "" ∨
         getField body "email" = .undef ∨ getField body "email" = .str "") :
    (postUsers st body).1.status = 400 ∧
    (postUsers st body).1.body = .obj [("error", .str "Name and email are required")] ∧
    (postUsers st body).2 = st := by
  have hcond : (!truthy (getField body "name") || !truthy (getField body "email")) = true := by
    rcases h with h | h | h | h <;> rw [h] <;> simp [truthy]
  simp [postUsers, hcond]

/-- Witness for C1 at the empty body (both fields missing). -/
theorem c1_witness :
    let st0 : Store := { users := [], todos := [], nextId := 0, now := 0, fault := none }
    (postUsers st0 []).1.status = 400 ∧
    (postUsers st0 []).1.body = .obj [("error", .str "Name and email are required")] ∧
    (postUsers st0 []).2 = st0 :=
  c1_post_users_missing_field_400 _ [] (Or.inl rfl)

/-! ### C2 -/

/-- C2: `PUT /todos/:id` on an existing todo, with a body whose only key is
`completed`, stores a document that agrees with the prior document on every
field other than `completed` and `updatedAt`; in particular `title` and
`description` are unchanged. -/
theorem c2_put_todo_completed_frame (st : Store) (docId : String) (d : Doc) (v : JVal)
    (hf : st.fault = none) (hd : findDoc st.todos docId = some d) :
    ∃ d2, findDoc (putTodo st docId [("completed", v)]).2.todos docId = some d2 ∧
      getField d2 "title" = getField d "title" ∧
      getField d2 "description" = getField d "description" ∧
      ∀ k, k ≠ "completed" → k ≠ "updatedAt" → getField d2 k = getField d k := by
  have htodos : (putTodo st docId [("completed", v)]).2.todos
      = updateAssoc st.todos docId
          (applyUpdate st.now d
            (if isUndef v then [("updatedAt", JVal.timeSentinel)]
             else [("updatedAt", JVal.timeSentinel), ("completed", v)])) := by
    simp [putTodo, hf, hd, getField, isUndef]
  rw [htodos]
  cases hv : isUndef v with
  | true =>
      simp only [hv, if_true]
      have hframe : ∀ k, k ≠ "completed" → k ≠ "updatedAt" →
          getField (applyUpdate st.now d [("updatedAt", JVal.timeSentinel)]) k
            = getField d k := by
        intro k hk1 hk2
        apply getField_foldl_setField
        intro p hp
        simp only [resolveSentinels, isSentinel, List.map_cons, List.map_nil,
          List.mem_singleton] at hp
        subst hp
        exact fun h' => hk2 h'.symm
      exact ⟨_, findDoc_updateAssoc _ _ _ _ hd,
        hframe _ (by decide) (by decide), hframe _ (by decide) (by decide), hframe⟩
  | false =>
      simp only [hv, Bool.false_eq_true, if_false]
      have hframe : ∀ k, k ≠ "completed" → k ≠ "updatedAt" →
          getField (applyUpdate st.now d
            [("updatedAt", JVal.timeSentinel), ("completed", v)]) k = getField d k := by
        intro k hk1 hk2
        apply getField_foldl_setField
        intro p hp
        simp only [resolveSentinels, isSentinel, List.map_cons, List.map_nil,
          List.mem_cons, List.mem_singleton, List.not_mem_nil, or_false] at hp
        rcases hp with hp | hp <;> subst hp
        · exact fun h' => hk2 h'.symm
        · exact fun h' => hk1 h'.symm
      exact ⟨_, findDoc_updateAssoc _ _ _ _ hd,
        hframe _ (by decide) (by decide), hframe _ (by decide) (by decide), hframe⟩

/-- Witness for C2: a concrete store holding one todo, updated with
`{completed: true}`; `title` and `description` keep their values. -/
theorem c2_witness :
    let d0 : Doc := [("title", JVal.str "Buy milk"), ("description", JVal.str "2L"),
                     ("completed", JVal.boolean false)]
    let st0 : Store := { users := [], todos := [("doc0", d0)],
                         nextId := 1, now := 5, fault := none }
    ∃ d2, findDoc (putTodo st0 "doc0" [("completed", JVal.boolean true)]).2.todos "doc0"
        = some d2 ∧
      getField d2 "title" = getField d0 "title" ∧
      getField d2 "description" = getField d0 "description" ∧
      ∀ k, k ≠ "completed" → k ≠ "updatedAt" → getField d2 k = getField d0 k :=
  c2_put_todo_completed_frame _ "doc0" _ (JVal.boolean true) rfl rfl

/-- The field list of an object response body (empty when the body is not an
object; field access on the empty list yields `undefined`, as in JS). -/
def bodyFields (r : HttpResp) : Doc :=
  match r.body with
  | .obj fields => fields
  | _ => []

/-- Field access on a JSON response body. -/
def respField (r : HttpResp) (k : String) : JVal :=
  getField (bodyFields r) k

/-! ### C3 -/

/-- C3: `POST /todos` with a non-empty string `title` answers HTTP 201, the
response's `completed` field is the supplied value — defaulting to `false`
when it was omitted — and the todo document is appended to the `todos`
collection. -/
theorem c3_post_todos_valid_created (st : Store) (body : Doc) (s : String)
    (hf : st.fault = none) (ht : getField body "title" = .str s) (hs : s ≠ "") :
    (postTodos st body).1.status = 201 ∧
    respField (postTodos st body).1 "completed"
      = orDefault (getField body "completed") (.boolean false) ∧
    ∃ docId dd, (postTodos st body).2.todos = st.todos ++ [(docId, dd)] ∧
      getField dd "title" = .str s := by
  have hcond : truthy (getField body "title") = true := by
    rw [ht]; simp [truthy, hs]
  refine ⟨?_, ?_, genId st.nextId,
    resolveSentinels st.now
      [("title", getField body "title"), ("description", getField body "description"),
       ("completed", orDefault (getField body "completed") (JVal.boolean false)),
       ("createdAt", JVal.timeSentinel), ("updatedAt", JVal.timeSentinel)], ?_, ?_⟩
  · simp [postTodos, hcond, hf]
  · simp [postTodos, hcond, hf, respField, bodyFields, mergeId, spreadInto, setField, getField]
  · simp [postTodos, hcond, hf]
  · simp [postTodos, hcond, hf, resolveSentinels, isSentinel, getField, ht]

/-- Witness for C3: `{"title":"Buy milk"}` with `completed` omitted. -/
theorem c3_witness :
    let st0 : Store := { users := [], todos := [], nextId := 0, now := 0, fault := none }
    let body : Doc := [("title", JVal.str "Buy milk")]
    (postTodos st0 body).1.status = 201 ∧
    respField (postTodos st0 body).1 "completed"
      = orDefault (getField body "completed") (.boolean false) ∧
    ∃ docId dd, (postTodos st0 body).2.todos = st0.todos ++ [(docId, dd)] ∧
      getField dd "title" = .str "Buy milk" :=
  c3_post_todos_valid_created _ _ "Buy milk" rfl rfl (by decide)

/-! ### C4 -/

/-- C4: `POST /users` with non-empty string `name` and `email` answers HTTP
201 with a non-empty document identifier and a `role` field equal to the
supplied value, defaulting to `"user"` when it was omitted. -/
theorem c4_post_users_valid_created (st : Store) (body : Doc) (sn se : String)
    (hf : st.fault = none)
    (hn : getField body "name" = .str sn) (hsn : sn ≠ "")
    (he : getField body "email" = .str se) (hse : se ≠ "") :
    (postUsers st body).1.status = 201 ∧
    (∃ i, respField (postUsers st body).1 "id" = .str i ∧ i ≠ "") ∧
    respField (postUsers st body).1 "role"
      = orDefault (getField body "role") (.str "user") := by
  have hcn : truthy (getField body "name") = true := by rw [hn]; simp [truthy, hsn]
  have hce : truthy (getField body "email") = true := by rw [he]; simp [truthy, hse]
  have hid : genId st.nextId ≠ "" := by
    intro h
    have hlen := congrArg String.length h
    simp [genId, String.length_append] at hlen
    exact absurd hlen.1 (by decide)
  refine ⟨?_, ⟨genId st.nextId, ?_, hid⟩, ?_⟩
  · simp [postUsers, hcn, hce, hf]
  · simp [postUsers, hcn, hce, hf, respField, bodyFields, mergeId, spreadInto, setField, getField]
  · simp [postUsers, hcn, hce, hf, respField, bodyFields, mergeId, spreadInto, setField, getField]

/-- Witness for C4: `{"name":"Ada","email":"a@b.c"}` with `role` omitted. -/
theorem c4_witness :
    let st0 : Store := { users := [], todos := [], nextId := 7, now := 0, fault := none }
    let body : Doc := [("name", JVal.str "Ada"), ("email", JVal.str "a@b.c")]
    (postUsers st0 body).1.status = 201 ∧
    (∃ i, respField (postUsers st0 body).1 "id" = .str i ∧ i ≠ "") ∧
    respField (postUsers st0 body).1 "role"
      = orDefault (getField body "role") (.str "user") :=
  c4_post_users_valid_created _ _ "Ada" "a@b.c" rfl rfl (by decide) rfl (by decide)

/-! ### C5 -/

/-- C5: `GET /users/:id` answers 404 with `{error: "User not found"}` when the
identifier has no document, and 200 with the document (identifier merged in)
when it does; the store is unchanged either way. -/
theorem c5_get_user_by_id_cases (st : Store) (docId : String) (hf : st.fault = none) :
    (findDoc st.users docId = none →
      getUserById st docId
        = ({ status := 404, body := .obj [("error", .str "User not found")] }, st)) ∧
    ∀ d, findDoc st.users docId = some d →
      getUserById st docId = ({ status := 200, body := .obj (mergeId docId d) }, st) := by
  constructor
  · intro h; simp [getUserById, hf, h]
  · intro d h; simp [getUserById, hf, h]

/-- Witness for C5: one stored user, probed at a missing and at the present
identifier. -/
theorem c5_witness :
    let d0 : Doc := [("name", JVal.str "Ada")]
    let st0 : Store := { users := [("u1", d0)], todos := [], nextId := 0, now := 0,
                         fault := none }
    getUserById st0 "nope"
      = ({ status := 404, body := .obj [("error", .str "User not found")] }, st0) ∧
    getUserById st0 "u1"
      = ({ status := 200, body := .obj (mergeId "u1" d0) }, st0) :=
  ⟨(c5_get_user_by_id_cases _ "nope" rfl).1 rfl,
   (c5_get_user_by_id_cases _ "u1" rfl).2 _ rfl⟩

/-! ### C6 -/

/-- C6: `DELETE /todos/:id` is idempotent at the interface: a second call on
the same identifier resolves (to the fixed confirmation message or to a
defined 500 error object, never an unhandled crash) and leaves the `todos`
collection exactly as the first call left it. -/
theorem c6_delete_todo_idempotent (st : Store) (docId : String) :
    ((deleteTodo (deleteTodo st docId).2 docId).1
        = { status := 200, body := .obj [("message", .str "Todo deleted successfully")] } ∨
      ∃ msg, (deleteTodo (deleteTodo st docId).2 docId).1 = err500 msg) ∧
    (deleteTodo (deleteTodo st docId).2 docId).2.todos = (deleteTodo st docId).2.todos := by
  cases hf : st.fault with
  | some msg =>
      exact ⟨Or.inr ⟨msg, by simp [deleteTodo, hf]⟩, by simp [deleteTodo, hf]⟩
  | none =>
      refine ⟨Or.inl (by simp [deleteTodo, hf]), ?_⟩
      simp [deleteTodo, hf, List.filter_filter]

/-! ### C7 -/

/-- C7: invoking callable `createUser` or `sendNotification` with a caller
context that carries no authenticated identity yields the `unauthenticated`
error and leaves the external platform state (Identity Provider accounts,
sent notifications) unchanged. -/
theorem c7_callables_unauthenticated (data : Doc) (ext : ExtState) :
    createUser data { auth := none } ext
      = (.error (.unauthenticated "User must be authenticated"), ext) ∧
    sendNotification data { auth := none } ext
      = (.error (.unauthenticated "User must be authenticated"), ext) :=
  ⟨rfl, rfl⟩

/-! ### C8 -/

/-- C8: when the document store client raises an exception during handler
execution (injected fault with message `msg`; for the creation handlers this
requires the request to pass validation, since validation precedes the store
call), every HTTP handler answers exactly HTTP 500 with `{error: msg}`, the
message passed through unmodified. -/
theorem c8_store_exception_500 (st : Store) (msg : String) (bodyU bodyT : Doc)
    (docId : String) (hf : st.fault = some msg)
    (hn : truthy (getField bodyU "name") = true)
    (he : truthy (getField bodyU "email") = true)
    (ht : truthy (getField bodyT "title") = true) :
    (getUsers st).1 = err500 msg ∧
    (postUsers st bodyU).1 = err500 msg ∧
    (getUserById st docId).1 = err500 msg ∧
    (getTodos st).1 = err500 msg ∧
    (postTodos st bodyT).1 = err500 msg ∧
    (putTodo st docId bodyT).1 = err500 msg ∧
    (deleteTodo st docId).1 = err500 msg := by
  refine ⟨?_, ?_, ?_, ?_, ?_, ?_, ?_⟩ <;>
    simp [getUsers, postUsers, getUserById, getTodos, postTodos, putTodo, deleteTodo,
      hf, hn, he, ht]

/-- Witness for C8: a store whose client throws `"boom"`, with valid creation
bodies. -/
theorem c8_witness :
    let st0 : Store := { users := [], todos := [], nextId := 0, now := 0,
                         fault := some "boom" }
    let bodyU : Doc := [("name", JVal.str "Ada"), ("email", JVal.str "a@b.c")]
    let bodyT : Doc := [("title", JVal.str "Buy milk")]
    (getUsers st0).1 = err500 "boom" ∧
    (postUsers st0 bodyU).1 = err500 "boom" ∧
    (getUserById st0 "u1").1 = err500 "boom" ∧
    (getTodos st0).1 = err500 "boom" ∧
    (postTodos st0 bodyT).1 = err500 "boom" ∧
    (putTodo st0 "t1" bodyT).1 = err500 "boom" ∧
    (deleteTodo st0 "t1").1 = err500 "boom" :=
  c8_store_exception_500 _ "boom" _ _ "u1" rfl (by decide) (by decide) (by decide)

/-! ### C9 -/

/-- C9: without a store fault, `GET /users` and `GET /todos` answer HTTP 200
with the list of at most 50 documents of the respective collection, each
document with its identifier merged in under `id`; the store is unchanged. -/
theorem c9_list_endpoints_cap50 (st : Store) (hf : st.fault = none) :
    getUsers st = (HttpResp.mk 200 (.obj [("users", .arr ((st.users.take 50).map
      (fun p => JVal.obj (mergeId p.1 p.2))))]), st) ∧
    ((st.users.take 50).map (fun p => JVal.obj (mergeId p.1 p.2))).length ≤ 50 ∧
    getTodos st = (HttpResp.mk 200 (.obj [("todos", .arr ((st.todos.take 50).map
      (fun p => JVal.obj (mergeId p.1 p.2))))]), st) ∧
    ((st.todos.take 50).map (fun p => JVal.obj (mergeId p.1 p.2))).length ≤ 50 := by
  refine ⟨by simp [getUsers, hf], ?_, by simp [getTodos, hf], ?_⟩ <;>
    · rw [List.length_map, List.length_take]
      exact Nat.min_le_left _ _

/-- Witness for C9: a concrete one-user, one-todo store. -/
theorem c9_witness :
    let st0 : Store := { users := [("u1", [("name", JVal.str "Ada")])],
                         todos := [("t1", [("title", JVal.str "Buy milk")])],
                         nextId := 2, now := 0, fault := none }
    getUsers st0 = (HttpResp.mk 200 (.obj [("users", .arr ((st0.users.take 50).map
      (fun p => JVal.obj (mergeId p.1 p.2))))]), st0) ∧
    ((st0.users.take 50).map (fun p => JVal.obj (mergeId p.1 p.2))).length ≤ 50 ∧
    getTodos st0 = (HttpResp.mk 200 (.obj [("todos", .arr ((st0.todos.take 50).map
      (fun p => JVal.obj (mergeId p.1 p.2))))]), st0) ∧
    ((st0.todos.take 50).map (fun p => JVal.obj (mergeId p.1 p.2))).length ≤ 50 :=
  c9_list_endpoints_cap50 _ rfl

/-! ### C10 -/

/-- C10: `POST /todos` with a non-empty `title` and `description` omitted
still answers 201, and both the response object and the document inserted
into the store contain the key `description` bound to the `undefined` value
— the key is not omitted; only `completed` receives an omitted-field
default. -/
theorem c10_post_todos_description_key_kept (st : Store) (body : Doc) (s : String)
    (hf : st.fault = none) (ht : getField body "title" = .str s) (hs : s ≠ "")
    (hdesc : getField body "description" = .undef) :
    (postTodos st body).1.status = 201 ∧
    (∃ fields, (postTodos st body).1.body = .obj fields ∧
      ("description", JVal.undef) ∈ fields) ∧
    respField (postTodos st body).1 "description" = JVal.undef ∧
    respField (postTodos st body).1 "completed"
      = orDefault (getField body "completed") (.boolean false) ∧
    ∃ docId dd, (postTodos st body).2.todos = st.todos ++ [(docId, dd)] ∧
      ("description", JVal.undef) ∈ dd := by
  have hcond : truthy (getField body "title") = true := by
    rw [ht]; simp [truthy, hs]
  refine ⟨by simp [postTodos, hcond, hf], ⟨?_, ?_, ?_⟩, ?_, ?_, genId st.nextId,
    resolveSentinels st.now
      [("title", getField body "title"), ("description", getField body "description"),
       ("completed", orDefault (getField body "completed") (JVal.boolean false)),
       ("createdAt", JVal.timeSentinel), ("updatedAt", JVal.timeSentinel)], ?_, ?_⟩
  · exact mergeId (genId st.nextId)
      [("title", getField body "title"), ("description", getField body "description"),
       ("completed", orDefault (getField body "completed") (JVal.boolean false)),
       ("createdAt", JVal.timeSentinel), ("updatedAt", JVal.timeSentinel)]
  · simp [postTodos, hcond, hf]
  · simp [mergeId, spreadInto, setField, hdesc]
  · simp [postTodos, hcond, hf, respField, bodyFields, mergeId, spreadInto, setField, getField, hdesc]
  · simp [postTodos, hcond, hf, respField, bodyFields, mergeId, spreadInto, setField, getField]
  · simp [postTodos, hcond, hf]
  · simp [resolveSentinels, isSentinel, hdesc]

/-- Witness for C10: `{"title":"Buy milk"}`, `description` omitted. -/
theorem c10_witness :
    let st0 : Store := { users := [], todos := [], nextId := 0, now := 0, fault := none }
    let body : Doc := [("title", JVal.str "Buy milk")]
    (postTodos st0 body).1.status = 201 ∧
    (∃ fields, (postTodos st0 body).1.body = .obj fields ∧
      ("description", JVal.undef) ∈ fields) ∧
    respField (postTodos st0 body).1 "description" = JVal.undef ∧
    respField (postTodos st0 body).1 "completed"
      = orDefault (getField body "completed") (.boolean false) ∧
    ∃ docId dd, (postTodos st0 body).2.todos = st0.todos ++ [(docId, dd)] ∧
      ("description", JVal.undef) ∈ dd :=
  c10_post_todos_description_key_kept _ _ "Buy milk" rfl rfl (by decide) rfl

end FirebaseApi
